import Mathlib

/-!
Shallow embedding of the edtext line-addressing library
(src/edtext/edtext.py): ed-style addresses, ranges, resolution against a
line list, and line selection.  Python strings are `String`, Python ints
are `Int`, a raised `ValueError` (or `IndexError`) is the `Err` type, and
`re.PatternError` is the separate `ReErr` type.
-/

/-- Errors raised by the Python code.  Each `ValueError` variant carries the
data its f-string message interpolates (so "the message includes X" is
modelled as "the error value carries X"); `indexError` models the
`IndexError` that Python list indexing raises on an out-of-range index. -/
inductive Err where
  | invalidDelta (input : String)
  | invalidRange (expr : String)
  | invalidRangeTail (rest : String)
  | patternNotFound (pattern : String)
  | badOrder (startLine endLine : Int)
  | outOfBounds (value : Int) (total : Int)
  | indexError
  deriving DecidableEq

/-- Pattern-syntax errors of the regular-expression engine
(`re.PatternError`), a type distinct from `Err` because the Python code
lets them propagate unchanged rather than wrapping them in `ValueError`. -/
inductive ReErr where
  | unterminatedCharacterSet
  | invalidGroupReference (group : Nat)
  deriving DecidableEq

/-- Whitespace for the `\s` character class of the parsing regex (the ASCII
whitespace characters; the inputs exercised use only spaces). -/
def pySpace (c : Char) : Bool :=
  c = ' ' || c = '\t' || c = '\n' || c = '\r' || c = '\x0b' || c = '\x0c'

/-- Characters admitted by the `[ +-]+` run-of-signs delta alternative. -/
def plusChar (c : Char) : Bool :=
  c = ' ' || c = '+' || c = '-'

/-- Numeric value of a run of decimal digits (`int(...)` on the digits). -/
def natOfDigits (ds : List Char) : Nat :=
  ds.foldl (fun n c => 10 * n + (c.toNat - '0'.toNat)) 0

/-- An ed-like line address (the Python dataclass `Addr`). -/
structure Addr where
  number : Option Int := none
  regex : Option String := none
  last : Bool := false
  delta : Int := 0
  deriving DecidableEq

/-- Base-specifier part of `Addr.parse`: the alternation
`(?:(?P<number>\d+)|(?P<regex>/[^/]+?(/|$))|(?P<last>\$)|\.)?` of the
parsing regex, applied to the input after leading whitespace.  Returns the
partially filled address and the unconsumed characters.  In the regex
alternative, the lazy body stops at the first `/`; when no closing `/`
exists the `$` alternative applies, which (as in Python) may also match
just before a final newline.  The captured text is then stripped of its
`/` delimiters (`m["regex"].strip("/")`). -/
def parseBase (cs : List Char) : Addr × List Char :=
  match cs with
  | [] => ({}, [])
  | c :: rest =>
    if c.isDigit then
      let ds := cs.takeWhile Char.isDigit
      ({ number := some (natOfDigits ds : Int) }, cs.drop ds.length)
    else if c = '/' then
      let upto := rest.takeWhile (fun x => x ≠ '/')
      let after := rest.drop upto.length
      match after with
      | '/' :: more =>
        if upto.isEmpty then ({}, cs)
        else ({ regex := some (String.mk upto) }, more)
      | _ =>
        let body :=
          if upto.getLast? = some '\n' && 2 ≤ upto.length then upto.dropLast
          else upto
        if body.isEmpty then ({}, cs)
        else ({ regex := some (String.mk body) }, rest.drop body.length)
    else if c = '$' then ({ last := true }, rest)
    else if c = '.' then ({}, rest)
    else ({}, cs)

/-- Numeric-delta alternative `(?P<delta>[+-]?\s*\d+)` of the parsing
regex: an optional sign, optional whitespace, then digits; `none` when it
does not match (so the run-of-signs alternative is tried instead).  The
value is `int(m["delta"].replace(" ", ""))`, i.e. the signed digit
value. -/
def parseNumDelta (cs : List Char) : Option (Int × List Char) :=
  let signed : Int × List Char :=
    match cs with
    | '+' :: r => (1, r)
    | '-' :: r => (-1, r)
    | _ => (1, cs)
  let cs2 := signed.2.dropWhile pySpace
  let ds := cs2.takeWhile Char.isDigit
  if ds.isEmpty then none
  else some (signed.1 * (natOfDigits ds : Int), cs2.drop ds.length)

/-- Parse one address: Python `Addr.parse(expr)`, returning the address and
the unconsumed tail of the input.  Raises `Err.invalidDelta expr` when the
run-of-signs delta mixes more than one distinct symbol once spaces are
stripped (`len(set(plus)) != 1`). -/
def Addr.parse (expr : String) : Except Err (Addr × String) :=
  let cs0 := expr.data.dropWhile pySpace
  let parsed := parseBase cs0
  let cs2 := parsed.2.dropWhile pySpace
  match parseNumDelta cs2 with
  | some (d, rest) => .ok ({ parsed.1 with delta := d }, String.mk rest)
  | none =>
    let run := cs2.takeWhile plusChar
    if run.isEmpty then .ok (parsed.1, String.mk cs2)
    else
      let stripped := run.filter (fun c => c ≠ ' ')
      match stripped with
      | [] => .error (.invalidDelta expr)
      | c :: others =>
        if others.all (fun x => x = c) then
          .ok ({ parsed.1 with
                  delta := (stripped.length : Int) * (if c = '+' then 1 else -1) },
               String.mk (cs2.drop run.length))
        else .error (.invalidDelta expr)

/-- True when the address is relative: no number, no regex, not `$`
(Python `Addr.is_relative`). -/
def Addr.isRelative (a : Addr) : Bool :=
  a.number.isNone && a.regex.isNone && !a.last

/-- A range of lines given by one or two addresses (the Python dataclass
`Range`; its field `end` is spelled `endAddr` because `end` is a Lean
keyword, and `from0` records that the separator was `,`). -/
structure Range where
  start : Addr
  endAddr : Option Addr := none
  from0 : Bool := true
  deriving DecidableEq

/-- Parse a range expression: Python `Range.parse(expr)`.  After the first
address the next character must be `,` or `;` (else
`Err.invalidRange expr`), and nothing may remain after the second address
(else `Err.invalidRangeTail rest`). -/
def Range.parse (expr : String) : Except Err Range := do
  let (first, rest) ← Addr.parse expr
  if rest.isEmpty then
    pure { start := first }
  else
    match rest.data with
    | [] => pure { start := first }
    | c :: tail =>
      if c = ',' || c = ';' then do
        let (e, rest2) ← Addr.parse (String.mk tail)
        if rest2.isEmpty then
          pure { start := first, endAddr := some e, from0 := c = ',' }
        else
          throw (.invalidRangeTail rest2)
      else
        throw (.invalidRange expr)

/-- Occurrence of `pat` as a contiguous sublist of the second argument. -/
def isSubstring (pat : List Char) : List Char → Bool
  | [] => pat.isEmpty
  | c :: rest => pat.isPrefixOf (c :: rest) || isSubstring pat rest

/-- Models Python `re.search(pattern, line) is not None` for the pattern
subset the repository's expressions exercise: a pattern without regex
metacharacters matches a line iff it occurs in it as a contiguous
substring. -/
def reSearch (pattern line : String) : Bool :=
  isSubstring pattern.data line.data

/-- Python list slice `l[start:]`, including its negative-index form. -/
def pySlice {α : Type} (l : List α) (start : Int) : List α :=
  if 0 ≤ start then l.drop start.toNat
  else l.drop ((l.length : Int) + start).toNat

/-- Python list indexing `l[i]`: negative indices count from the end, and
an index out of range raises `IndexError`. -/
def pyGet {α : Type} (l : List α) (i : Int) : Except Err α :=
  let j := if i < 0 then (l.length : Int) + i else i
  match l.get? j.toNat with
  | some x => if 0 ≤ j then .ok x else .error .indexError
  | none => .error .indexError

/-- Python `range(a, b)` over integers: `a, a+1, ..., b-1` (empty when
`b ≤ a`). -/
def pyRange (a b : Int) : List Int :=
  (List.range (b - a).toNat).map (fun i : Nat => a + (i : Int))

/-- The loop of the regex branch of `_resolve_addr`:
`for num, line in enumerate(self._lines[start:], start=start + 1)`,
returning the one-based number of the first line the pattern matches. -/
def findFrom (pattern : String) : List String → Int → Option Int
  | [], _ => none
  | l :: rest, num => if reSearch pattern l then some num else findFrom pattern rest (num + 1)

/-- Line boundary characters of Python `str.splitlines`. -/
def isLineBoundary (c : Char) : Bool :=
  c = '\n' || c = '\r' || c = '\x0b' || c = '\x0c' || c = '\x1c' ||
  c = '\x1d' || c = '\x1e' || c = '\x85' || c = '\u2028' || c = '\u2029'

/-- Worker for `str.splitlines(keepends=True)`: `acc` holds the current
line's characters in reverse; every boundary (with `\r\n` as a single
boundary) ends a line with its terminator kept. -/
def slAux : List Char → List Char → List (List Char)
  | [], acc => if acc.isEmpty then [] else [acc.reverse]
  | c :: rest, acc =>
    if c = '\r' && rest.head? = some '\n' then
      (acc.reverse ++ ['\r', '\n']) :: slAux rest.tail []
    else if isLineBoundary c then (acc.reverse ++ [c]) :: slAux rest []
    else slAux rest (c :: acc)
termination_by cs _ => cs.length
decreasing_by
  · simp [List.length_tail]
    omega
  · simp
  · simp

/-- Python `text.splitlines(keepends=True)`. -/
def pySplitlines (s : String) : List String :=
  (slAux s.data []).map String.mk

/-- Python `"".join(lines)`. -/
def pyJoin : List String → String
  | [] => ""
  | s :: rest => s ++ pyJoin rest

/-- A string-like object with ed-like line addressing (the Python class
`EdText`, the spec's Document): the full text plus its list of lines. -/
structure EdText where
  text : String
  lines : List String
  deriving DecidableEq

/-- `EdText(text)`: lines are derived by `text.splitlines(keepends=True)`. -/
def EdText.ofText (text : String) : EdText :=
  ⟨text, pySplitlines text⟩

/-- `EdText.from_lines(lines)`: the text is `"".join(lines)`. -/
def EdText.fromLines (lines : List String) : EdText :=
  ⟨pyJoin lines, lines⟩

/-- Python `EdText._resolve_addr(addr, start)`: the one-based line number
for an address, where `start` is the one-based current line and 0 means
"from the beginning". -/
def EdText.resolveAddr (d : EdText) (addr : Addr) (start : Int) : Except Err Int :=
  match addr.number with
  | some n => .ok (n + addr.delta)
  | none =>
    match addr.regex with
    | some pattern =>
      match findFrom pattern (pySlice d.lines start) (start + 1) with
      | some num => .ok (num + addr.delta)
      | none => .error (.patternNotFound pattern)
    | none =>
      if addr.last then .ok ((d.lines.length : Int) + addr.delta)
      else
        let base := if start = 0 then 1 else start
        .ok (base + addr.delta)

/-- One iteration of the `_line_numbers` loop body after `Range.parse`:
resolve the start, resolve the end against the anchor chosen by the
separator (1 for `,`, the resolved start for `;`), reject a relative end
after `,`, reject start > end, and return the selected zero-based indices
together with the new cursor (the resolved end line). -/
def EdText.resolveRange (d : EdText) (r : Range) (expr : String) (start : Int) :
    Except Err (List Int × Int) := do
  let startIdx ← d.resolveAddr r.start start
  let endIdx ←
    match r.endAddr with
    | none => pure startIdx
    | some e =>
      let anchor := if r.from0 then 1 else startIdx
      if e.isRelative && r.from0 then
        throw (Err.invalidRange expr)
      else
        d.resolveAddr e anchor
  if startIdx > endIdx then
    throw (Err.badOrder startIdx endIdx)
  else
    pure (pyRange (startIdx - 1) endIdx, endIdx)

/-- Parse one range expression and resolve it against the cursor. -/
def EdText.rangeNumbers (d : EdText) (expr : String) (start : Int) :
    Except Err (List Int × Int) := do
  let r ← Range.parse expr
  d.resolveRange r expr start

/-- The loop of `EdText._line_numbers`: each expression is evaluated
against the cursor left by the previous one, and the selected indices are
concatenated in order. -/
def EdText.lineNumbersLoop (d : EdText) : List String → Int → Except Err (List Int)
  | [], _ => pure []
  | e :: rest, start => do
    let (nums, c2) ← d.rangeNumbers e start
    let ns ← d.lineNumbersLoop rest c2
    pure (nums ++ ns)

/-- Python `EdText._line_numbers(*range_exprs)`: the cursor starts at 0. -/
def EdText.lineNumbers (d : EdText) (exprs : List String) : Except Err (List Int) :=
  d.lineNumbersLoop exprs 0

/-- Python `EdText.ranges(*range_exprs)`: a new `EdText` from the lines at
the selected indices (Python list indexing, so an out-of-range index is an
`IndexError`). -/
def EdText.ranges (d : EdText) (exprs : List String) : Except Err EdText := do
  let nums ← d.lineNumbers exprs
  let ls ← nums.mapM (pyGet d.lines)
  pure (EdText.fromLines ls)

/-- Modelled from the spec: the bounds-validation step of range resolution
(spec section 4.3 step 5), which is absent from the sources provided (the
repository's tests exercise it: "Address N outside of range 1-M").  After
the ordering check, both resolved line numbers are checked, start first,
against `[1, total line count]`; the error names the offending value and
the valid range. -/
def EdText.resolveRangeChecked (d : EdText) (r : Range) (expr : String) (start : Int) :
    Except Err (List Int × Int) := do
  let startIdx ← d.resolveAddr r.start start
  let endIdx ←
    match r.endAddr with
    | none => pure startIdx
    | some e =>
      let anchor := if r.from0 then 1 else startIdx
      if e.isRelative && r.from0 then
        throw (Err.invalidRange expr)
      else
        d.resolveAddr e anchor
  if startIdx > endIdx then
    throw (Err.badOrder startIdx endIdx)
  else
    let total : Int := d.lines.length
    if startIdx < 1 || total < startIdx then
      throw (Err.outOfBounds startIdx total)
    else if endIdx < 1 || total < endIdx then
      throw (Err.outOfBounds endIdx total)
    else
      pure (pyRange (startIdx - 1) endIdx, endIdx)

/-- Modelled from the spec: the `_line_numbers` loop with the
bounds-validation step included (spec section 4.3), absent from the
sources provided. -/
def EdText.lineNumbersLoopChecked (d : EdText) : List String → Int → Except Err (List Int)
  | [], _ => pure []
  | e :: rest, start => do
    let r ← Range.parse e
    let (nums, c2) ← d.resolveRangeChecked r e start
    let ns ← d.lineNumbersLoopChecked rest c2
    pure (nums ++ ns)

/-- Modelled from the spec: `Document.select(*expressions)` with bounds
validation (spec sections 4.3 and 4.4), absent from the sources
provided. -/
def EdText.select (d : EdText) (exprs : List String) : Except Err EdText := do
  let nums ← d.lineNumbersLoopChecked exprs 0
  let ls ← nums.mapM (pyGet d.lines)
  pure (EdText.fromLines ls)

/-- Modelled from the spec: the check `re.compile(pattern)` performs, for
the malformed-pattern form the repository's tests exercise (a character
set opened with `[` and never closed). -/
def hasUnterminatedSet (cs : List Char) : Bool :=
  cs.contains '[' && !cs.contains ']'

/-- Modelled from the spec: the number of capture groups of a pattern, for
patterns (as exercised) whose every `(` opens a group. -/
def reGroupCount (pattern : String) : Nat :=
  pattern.data.count '('

/-- Modelled from the spec: the numeric back-references `\N` occurring in a
replacement template, as validated by `re.sub` before any matching. -/
def scanBackrefs : List Char → List Nat
  | [] => []
  | '\\' :: c :: rest =>
    if c.isDigit then (c.toNat - '0'.toNat) :: scanBackrefs rest
    else scanBackrefs (c :: rest)
  | _ :: rest => scanBackrefs rest

/-- Modelled from the spec: `re.sub(pattern, repl, line, count=1)` for a
literal pattern — replace the first (leftmost) occurrence only. -/
def replaceFirst (pattern repl : List Char) : List Char → List Char
  | [] => if pattern.isEmpty then repl else []
  | c :: rest =>
    if pattern.isPrefixOf (c :: rest) then repl ++ (c :: rest).drop pattern.length
    else c :: replaceFirst pattern repl rest

/-- Modelled from the spec: one line of the substitution (first match only
per line). -/
def reSubLine (pattern repl line : String) : String :=
  String.mk (replaceFirst pattern.data repl.data line.data)

/-- Modelled from the spec: `EdText.sub(pattern, repl)` / the spec's
`Document.substitute`, absent from the sources provided (the repository's
tests call it).  It applies a regular-expression search-and-replace, first
match only per line, independently to every line, producing a new
document; a malformed pattern or an invalid back-reference in the
replacement fails with the regex engine's own `ReErr`, before and
regardless of any matching.  The engine is modelled for the feature subset
the tests exercise: literal patterns and `\N` back-references. -/
def EdText.sub (d : EdText) (pattern repl : String) : Except ReErr EdText :=
  if hasUnterminatedSet pattern.data then
    .error .unterminatedCharacterSet
  else
    match (scanBackrefs repl.data).find? (fun n => reGroupCount pattern < n) with
    | some n => .error (.invalidGroupReference n)
    | none => .ok (EdText.fromLines (d.lines.map (reSubLine pattern repl)))

/-- The ten-line document of the spec's concrete scenarios: lines
"line 1" .. "line 10", each newline-terminated. -/
def tenLines : List String :=
  ["line 1\n", "line 2\n", "line 3\n", "line 4\n", "line 5\n",
   "line 6\n", "line 7\n", "line 8\n", "line 9\n", "line 10\n"]

/-- The ten-line document as an `EdText`. -/
def tenDoc : EdText :=
  EdText.fromLines tenLines

/-! ### Helper lemmas -/

theorem ok_bind {ε α β : Type} (a : α) (f : α → Except ε β) :
    (Except.ok a >>= f : Except ε β) = f a := rfl

theorem error_bind {ε α β : Type} (e : ε) (f : α → Except ε β) :
    (Except.error e >>= f : Except ε β) = Except.error e := rfl

theorem throw_bind {ε α β : Type} (e : ε) (f : α → Except ε β) :
    ((throw e : Except ε α) >>= f) = Except.error e := rfl

theorem mem_pyRange (a b i : Int) : i ∈ pyRange a b ↔ a ≤ i ∧ i < b := by
  simp only [pyRange, List.mem_map, List.mem_range]
  constructor
  · rintro ⟨k, hk, rfl⟩
    omega
  · intro h
    exact ⟨(i - a).toNat, by omega, by omega⟩

/-- The `_resolve_addr` search loop finds the first matching line: if the
line at offset `k` matches and no earlier line does, the loop stops there
and reports `num + k`. -/
theorem findFrom_eq_some (pattern : String) (l : List String) (num : Int) (k : Nat)
    (hk : k < l.length) (hm : reSearch pattern (l.getD k "") = true)
    (hmin : ∀ j, j < k → reSearch pattern (l.getD j "") = false) :
    findFrom pattern l num = some (num + k) := by
  induction l generalizing num k with
  | nil => simp at hk
  | cons a rest ih =>
    cases k with
    | zero =>
      simp only [List.getD_eq_getElem?_getD, List.getElem?_cons_zero, Option.getD_some] at hm
      simp [findFrom, hm]
    | succ k =>
      have h0 := hmin 0 (Nat.succ_pos k)
      simp only [List.getD_eq_getElem?_getD, List.getElem?_cons_zero, Option.getD_some] at h0
      rw [findFrom, if_neg (by simp [h0])]
      have hrec := ih (num + 1) k (by simpa using hk)
        (by simpa using hm)
        (fun j hj => by simpa using hmin (j + 1) (by omega))
      rw [hrec]
      congr 1
      omega

/-- The `_resolve_addr` search loop returns nothing when no line matches. -/
theorem findFrom_eq_none (pattern : String) (l : List String) (num : Int)
    (h : ∀ j, j < l.length → reSearch pattern (l.getD j "") = false) :
    findFrom pattern l num = none := by
  induction l generalizing num with
  | nil => rfl
  | cons a rest ih =>
    have h0 := h 0 (by simp)
    simp only [List.getD_eq_getElem?_getD, List.getElem?_cons_zero, Option.getD_some] at h0
    rw [findFrom, if_neg (by simp [h0])]
    exact ih (num + 1) (fun j hj => by simpa using h (j + 1) (by simpa using hj))

theorem getD_drop (l : List String) (n k : Nat) :
    (l.drop n).getD k "" = l.getD (n + k) "" := by
  simp [List.getD_eq_getElem?_getD, List.getElem?_drop]

/-! ### Claims -/

/-- C2: range expressions are evaluated left-to-right against a single
cursor starting at 0; each expression's selected indices are concatenated
in order and the cursor an expression produces (its resolved end line) is
the cursor for the next; on the ten-line document,
`select("/4/+1", "/line/++,/9/")` yields exactly lines 5, 8 and 9. -/
theorem claim_C2 :
    (∀ (d : EdText) (e : String) (rest : List String) (c : Int),
      d.lineNumbersLoop (e :: rest) c =
        (d.rangeNumbers e c) >>= (fun p =>
          (d.lineNumbersLoop rest p.2) >>= (fun ns => pure (p.1 ++ ns))))
    ∧ (∀ (d : EdText) (exprs : List String),
        d.lineNumbers exprs = d.lineNumbersLoop exprs 0)
    ∧ tenDoc.rangeNumbers "/4/+1" 0 = .ok ([4], 5)
    ∧ tenDoc.rangeNumbers "/line/++,/9/" 5 = .ok ([7, 8], 9)
    ∧ tenDoc.ranges ["/4/+1", "/line/++,/9/"] =
        .ok (EdText.fromLines ["line 5\n", "line 8\n", "line 9\n"]) := by
  refine ⟨?_, fun d exprs => rfl, rfl, rfl, rfl⟩
  intro d e rest c
  cases h : d.rangeNumbers e c with
  | error err => simp [EdText.lineNumbersLoop, h, error_bind]
  | ok p =>
    cases p with
    | mk nums c2 => simp [EdText.lineNumbersLoop, h, ok_bind]

/-- C6: a two-address range whose separator was `,` and whose end address
is purely relative fails with an invalid-range error citing the original
expression, before any end line is computed (the end address is never
resolved). -/
theorem claim_C6 (d : EdText) (expr : String) (r : Range) (e : Addr) (c sl : Int)
    (hparse : Range.parse expr = .ok r)
    (hend : r.endAddr = some e)
    (hfrom : r.from0 = true)
    (hrel : e.isRelative = true)
    (hstart : d.resolveAddr r.start c = .ok sl) :
    d.rangeNumbers expr c = .error (.invalidRange expr) := by
  unfold EdText.rangeNumbers
  rw [hparse, ok_bind]
  unfold EdText.resolveRange
  rw [hstart, ok_bind, hend]
  simp [hrel, hfrom, throw_bind]

/-- C6 witness: on the ten-line document, `5,++` is rejected as an invalid
range citing the expression. -/
theorem claim_C6_witness :
    tenDoc.rangeNumbers "5,++" 0 = .error (.invalidRange "5,++") :=
  claim_C6 tenDoc "5,++"
    { start := { number := some 5 }, endAddr := some { delta := 2 }, from0 := true }
    { delta := 2 } 0 5 rfl rfl rfl rfl rfl

/-- C8: when the resolved start line exceeds the resolved end line, the
range fails with an error carrying both resolved values; concretely,
`select("5,3")` on the ten-line document fails with values 5 and 3. -/
theorem claim_C8 :
    (∀ (d : EdText) (r : Range) (e : Addr) (expr : String) (c sl el : Int),
      r.endAddr = some e →
      d.resolveAddr r.start c = .ok sl →
      (e.isRelative && r.from0) = false →
      d.resolveAddr e (if r.from0 then 1 else sl) = .ok el →
      el < sl →
      d.resolveRange r expr c = .error (.badOrder sl el))
    ∧ tenDoc.ranges ["5,3"] = .error (.badOrder 5 3) := by
  refine ⟨?_, rfl⟩
  intro d r e expr c sl el hend hstart hnotrel hresend hlt
  unfold EdText.resolveRange
  rw [hstart, ok_bind, hend]
  simp only [hnotrel, Bool.false_eq_true, if_false, hresend, ok_bind]
  rw [if_pos hlt]
  rfl

/-- C8 witness: instantiating the ordering check on the parsed range
`5,3` of the ten-line document. -/
theorem claim_C8_witness :
    tenDoc.resolveRange
      { start := { number := some 5 }, endAddr := some { number := some 3 },
        from0 := true } "5,3" 0 = .error (.badOrder 5 3) :=
  claim_C8.1 tenDoc
    { start := { number := some 5 }, endAddr := some { number := some 3 },
      from0 := true }
    { number := some 3 } "5,3" 0 5 3 rfl rfl rfl rfl (by decide)

/-- C10: the empty expression parses to the fully-relative address with
delta 0, which is relative, and on any document with at least one line
selecting with the empty expression alone yields a document containing
exactly the first line (cursor 0 makes the relative base default to
line 1). -/
theorem claim_C10 :
    Addr.parse "" = .ok ({ number := none, regex := none, last := false, delta := 0 }, "")
    ∧ Addr.isRelative { number := none, regex := none, last := false, delta := 0 } = true
    ∧ ∀ (d : EdText) (l : String) (t : List String), d.lines = l :: t →
        d.ranges [""] = .ok (EdText.fromLines [l]) := by
  refine ⟨rfl, rfl, ?_⟩
  intro d l t h
  unfold EdText.ranges EdText.lineNumbers
  have h1 : d.lineNumbersLoop [""] 0 = .ok [0] := by
    have hr : d.rangeNumbers "" 0 = .ok ([0], 1) := rfl
    simp [EdText.lineNumbersLoop, hr, ok_bind]
  rw [h1, ok_bind]
  have h2 : ([0] : List Int).mapM (pyGet d.lines) = .ok [l] := by
    have hg : pyGet d.lines 0 = .ok l := by
      rw [h]; rfl
    simp [List.mapM, List.mapM.loop, hg]
  rw [h2, ok_bind]
  rfl

/-- C10 witness: the ten-line document selected with the empty expression
yields its first line. -/
theorem claim_C10_witness :
    tenDoc.ranges [""] = .ok (EdText.fromLines ["line 1\n"]) :=
  claim_C10.2.2 tenDoc "line 1\n"
    ["line 2\n", "line 3\n", "line 4\n", "line 5\n",
     "line 6\n", "line 7\n", "line 8\n", "line 9\n", "line 10\n"] rfl

/-- Unfolding of `_resolve_addr` for a pattern address: the forward search
starts at the cursor and enumerates one-based line numbers from
`cursor + 1`. -/
theorem resolveAddr_regex (d : EdText) (pattern : String) (delta c : Int) :
    d.resolveAddr { regex := some pattern, delta := delta } c =
      match findFrom pattern (pySlice d.lines c) (c + 1) with
      | some num => .ok (num + delta)
      | none => .error (.patternNotFound pattern) := rfl

/-- C5: for a two-address range the end address is resolved using anchor 1
as the cursor when the separator was `,` and the resolved start line when
it was `;`; the selection is exactly the contiguous zero-based indices
`start_line - 1` through `end_line - 1` inclusive, and the new cursor is
`end_line`. -/
theorem claim_C5 (d : EdText) (r : Range) (e : Addr) (expr : String) (c sl el : Int)
    (hend : r.endAddr = some e)
    (hstart : d.resolveAddr r.start c = .ok sl)
    (hnotrel : (e.isRelative && r.from0) = false)
    (hresend : d.resolveAddr e (if r.from0 then 1 else sl) = .ok el)
    (hle : sl ≤ el) :
    d.resolveRange r expr c = .ok (pyRange (sl - 1) el, el)
    ∧ ∀ i : Int, i ∈ pyRange (sl - 1) el ↔ (sl - 1 ≤ i ∧ i ≤ el - 1) := by
  constructor
  · unfold EdText.resolveRange
    rw [hstart, ok_bind, hend]
    simp only [hnotrel, Bool.false_eq_true, if_false, hresend, ok_bind]
    rw [if_neg (by omega)]
    rfl
  · intro i
    rw [mem_pyRange]
    omega

/-- C5 witness: the `;` range `5;++` on the ten-line document resolves its
end against the resolved start 5, selecting indices 4..6 with new
cursor 7. -/
theorem claim_C5_witness :
    tenDoc.resolveRange
      { start := { number := some 5 }, endAddr := some { delta := 2 }, from0 := false }
      "5;++" 0 = .ok (pyRange 4 7, 7) :=
  (claim_C5 tenDoc
    { start := { number := some 5 }, endAddr := some { delta := 2 }, from0 := false }
    { delta := 2 } "5;++" 0 5 7 rfl rfl rfl rfl (by decide)).1

/-- C4: a pattern address is resolved by searching the lines forward from
zero-based index equal to the cursor for the first matching line, and
yields that line's one-based index plus the delta; when no line at or
after the search start matches, resolution fails with a pattern-not-found
error naming the pattern. -/
theorem claim_C4 (d : EdText) (pattern : String) (delta c : Int) (hc : 0 ≤ c) :
    (∀ k : Nat, c.toNat + k < d.lines.length →
      reSearch pattern (d.lines.getD (c.toNat + k) "") = true →
      (∀ j : Nat, j < k → reSearch pattern (d.lines.getD (c.toNat + j) "") = false) →
      d.resolveAddr { regex := some pattern, delta := delta } c = .ok (c + 1 + k + delta))
    ∧ ((∀ i : Nat, i < d.lines.length → c.toNat ≤ i →
          reSearch pattern (d.lines.getD i "") = false) →
        d.resolveAddr { regex := some pattern, delta := delta } c =
          .error (.patternNotFound pattern)) := by
  have hslice : pySlice d.lines c = d.lines.drop c.toNat := by
    unfold pySlice
    rw [if_pos hc]
  constructor
  · intro k hk hm hmin
    rw [resolveAddr_regex, hslice,
      findFrom_eq_some pattern (d.lines.drop c.toNat) (c + 1) k
        (by rw [List.length_drop]; omega)
        (by rw [getD_drop]; exact hm)
        (fun j hj => by rw [getD_drop]; exact hmin j hj)]
  · intro hnone
    rw [resolveAddr_regex, hslice,
      findFrom_eq_none pattern (d.lines.drop c.toNat) (c + 1)
        (fun j hj => by
          rw [getD_drop]
          exact hnone (c.toNat + j)
            (by rw [List.length_drop] at hj; omega)
            (Nat.le_add_right _ _))]

/-- C4 witness: on the ten-line document, `/4/` with delta 1 and cursor 0
resolves to line 5 (first match at zero-based index 3), and `/hello/`
fails naming the pattern. -/
theorem claim_C4_witness :
    tenDoc.resolveAddr { regex := some "4", delta := 1 } 0 = .ok 5
    ∧ tenDoc.resolveAddr { regex := some "hello", delta := 0 } 0 =
        .error (.patternNotFound "hello") := by
  constructor
  · have h := (claim_C4 tenDoc "4" 1 0 (by decide)).1 3 (by decide) (by decide)
      (by decide)
    simpa using h
  · exact (claim_C4 tenDoc "hello" 0 0 (by decide)).2 (by decide)

/-- C1: when either resolved line of a two-address range falls outside
1..total line count, the (spec-modelled) checked selection fails with a
bounds error naming the offending value (the start is checked first) and
the valid range, and no document is produced; concretely on the ten-line
document the range with start address pattern "line 1" and delta -1 and
end 4 fails with 0 outside 1-10, and `select("20,25")` fails with 20
outside 1-10. -/
theorem claim_C1 :
    (∀ (d : EdText) (r : Range) (e : Addr) (expr : String) (c sl el : Int),
      r.endAddr = some e →
      d.resolveAddr r.start c = .ok sl →
      (e.isRelative && r.from0) = false →
      d.resolveAddr e (if r.from0 then 1 else sl) = .ok el →
      sl ≤ el →
      (sl < 1 ∨ (d.lines.length : Int) < sl ∨ el < 1 ∨ (d.lines.length : Int) < el) →
      d.resolveRangeChecked r expr c =
        .error (.outOfBounds
          (if sl < 1 ∨ (d.lines.length : Int) < sl then sl else el)
          d.lines.length))
    ∧ tenDoc.select ["/line 1/-,4"] = .error (.outOfBounds 0 10)
    ∧ tenDoc.select ["20,25"] = .error (.outOfBounds 20 10) := by
  refine ⟨?_, rfl, rfl⟩
  intro d r e expr c sl el hend hstart hnotrel hresend hle hout
  simp only [EdText.resolveRangeChecked]
  rw [hstart, ok_bind, hend]
  simp only [hnotrel, Bool.false_eq_true, if_false, hresend, ok_bind]
  rw [if_neg (by omega)]
  simp only [Bool.or_eq_true, decide_eq_true_eq]
  by_cases hsl : sl < 1 ∨ (d.lines.length : Int) < sl
  · rw [if_pos hsl, if_pos hsl]
    rfl
  · rw [if_neg hsl, if_neg hsl, if_pos (by omega)]
    rfl

/-- C1 witness: instantiating the bounds check on the parsed range
`20,25` of the ten-line document. -/
theorem claim_C1_witness :
    tenDoc.resolveRangeChecked
      { start := { number := some 20 }, endAddr := some { number := some 25 },
        from0 := true } "20,25" 0 = .error (.outOfBounds 20 10) := by
  have h := claim_C1.1 tenDoc
    { start := { number := some 20 }, endAddr := some { number := some 25 },
      from0 := true }
    { number := some 25 } "20,25" 0 20 25 rfl rfl rfl rfl (by decide) (by decide)
  simpa using h

/-- C3: the (spec-modelled) substitution applies a first-match-only
regular-expression replacement to every line independently and returns a
new document; a malformed pattern or an invalid back-reference in the
replacement fails immediately with the regex engine's own pattern-syntax
error type `ReErr`, not a wrapped domain `Err`; concretely
`sub("line", "LINE")` then `"2,3"` yields "LINE 2\nLINE 3\n", and
`sub("hi", "bye\3")` fails with an invalid group reference. -/
theorem claim_C3 :
    (∀ (d : EdText) (pattern repl : String),
      hasUnterminatedSet pattern.data = false →
      (scanBackrefs repl.data).find? (fun n => reGroupCount pattern < n) = none →
      d.sub pattern repl =
        .ok (EdText.fromLines (d.lines.map (reSubLine pattern repl))))
    ∧ (EdText.fromLines ["ab ab\n"]).sub "ab" "X" = .ok (EdText.fromLines ["X ab\n"])
    ∧ tenDoc.sub "line" "LINE" =
        .ok (EdText.fromLines
          ["LINE 1\n", "LINE 2\n", "LINE 3\n", "LINE 4\n", "LINE 5\n",
           "LINE 6\n", "LINE 7\n", "LINE 8\n", "LINE 9\n", "LINE 10\n"])
    ∧ (EdText.fromLines
        ["LINE 1\n", "LINE 2\n", "LINE 3\n", "LINE 4\n", "LINE 5\n",
         "LINE 6\n", "LINE 7\n", "LINE 8\n", "LINE 9\n", "LINE 10\n"]).ranges ["2,3"] =
        .ok (EdText.fromLines ["LINE 2\n", "LINE 3\n"])
    ∧ tenDoc.sub "hi[" "bye" = .error .unterminatedCharacterSet
    ∧ tenDoc.sub "hi" "bye\\3" = .error (.invalidGroupReference 3) := by
  refine ⟨?_, rfl, rfl, rfl, rfl, rfl⟩
  intro d pattern repl hpat hrepl
  unfold EdText.sub
  rw [if_neg (by simp [hpat]), hrepl]

/-- C3 witness: instantiating the per-line substitution shape on the
ten-line document. -/
theorem claim_C3_witness :
    tenDoc.sub "x" "y" =
      .ok (EdText.fromLines (tenDoc.lines.map (reSubLine "x" "y"))) :=
  claim_C3.1 tenDoc "x" "y" rfl rfl

/-- Every boundary-terminated piece produced by the splitlines worker
concatenates back to the input (with the pending accumulator in front). -/
theorem slAux_flatten (cs acc : List Char) :
    (slAux cs acc).flatten = acc.reverse ++ cs := by
  induction cs, acc using slAux.induct with
  | case1 acc h =>
    rw [slAux, if_pos h]
    simp [List.isEmpty_iff.mp h]
  | case2 acc h =>
    rw [slAux, if_neg h]
    simp
  | case3 c rest acc h ih =>
    have h2 := h
    simp only [Bool.and_eq_true, decide_eq_true_eq] at h2
    obtain ⟨hc, hh⟩ := h2
    obtain ⟨rest2, rfl⟩ : ∃ rest2, rest = '\n' :: rest2 := by
      cases rest with
      | nil => simp at hh
      | cons a t =>
        simp only [List.head?_cons, Option.some.injEq] at hh
        exact ⟨t, by rw [hh]⟩
    rw [slAux, if_pos h]
    subst hc
    simp only [List.tail_cons] at ih
    simp [ih]
  | case4 c rest acc h hb ih =>
    rw [slAux, if_neg h, if_pos hb]
    simp [ih]
  | case5 c rest acc h hb ih =>
    rw [slAux, if_neg h, if_neg hb]
    simp [ih]

theorem pyJoin_data (ls : List String) :
    (pyJoin ls).data = (ls.map String.data).flatten := by
  induction ls with
  | nil => rfl
  | cons s rest ih => simp [pyJoin, ih]

/-- Splitting with terminators kept and joining gives back the text. -/
theorem pySplitlines_join (s : String) : pyJoin (pySplitlines s) = s := by
  apply String.ext
  rw [pyJoin_data]
  unfold pySplitlines
  rw [List.map_map]
  have hid : String.data ∘ String.mk = id := rfl
  rw [hid, List.map_id]
  simpa using slAux_flatten s.data []

/-- C9: every document satisfies `text = concat(lines)` — whether built
from raw text (lines by newline splitting with terminators kept), from an
explicit line list (text by concatenation), or produced by a selection —
and hence rebuilding a document from any document's lines reproduces its
text. -/
theorem claim_C9 :
    (∀ s : String, (EdText.ofText s).text = pyJoin (EdText.ofText s).lines)
    ∧ (∀ ls : List String,
        (EdText.fromLines ls).text = pyJoin (EdText.fromLines ls).lines)
    ∧ (∀ (d : EdText) (exprs : List String) (d2 : EdText),
        d.ranges exprs = .ok d2 → d2.text = pyJoin d2.lines)
    ∧ (∀ d : EdText, d.text = pyJoin d.lines →
        (EdText.fromLines d.lines).text = d.text) := by
  refine ⟨?_, fun ls => rfl, ?_, ?_⟩
  · intro s
    exact (pySplitlines_join s).symm
  · intro d exprs d2 h
    unfold EdText.ranges at h
    cases hn : d.lineNumbers exprs with
    | error e => rw [hn, error_bind] at h; exact absurd h (by simp)
    | ok nums =>
      rw [hn, ok_bind] at h
      cases hm : nums.mapM (pyGet d.lines) with
      | error e => rw [hm, error_bind] at h; exact absurd h (by simp)
      | ok ls =>
        rw [hm, ok_bind] at h
        have hd : EdText.fromLines ls = d2 := by
          simpa [pure, Except.pure] using h
        rw [← hd]
        rfl
  · intro d h
    rw [h]
    rfl

/-- C9 witness: a selection result satisfies the invariant, and the
round-trip holds on the ten-line document. -/
theorem claim_C9_witness :
    (EdText.fromLines ["line 5\n"]).text = pyJoin (EdText.fromLines ["line 5\n"]).lines
    ∧ (EdText.fromLines tenDoc.lines).text = tenDoc.text := by
  constructor
  · exact claim_C9.2.2.1 tenDoc ["5"] (EdText.fromLines ["line 5\n"]) rfl
  · exact claim_C9.2.2.2 tenDoc rfl

theorem takeWhile_nil_of_head (p : Char → Bool) (l : List Char)
    (h : ∀ c, l.head? = some c → p c = false) : l.takeWhile p = [] := by
  cases l with
  | nil => rfl
  | cons a t => simp [List.takeWhile_cons, h a rfl]

theorem takeWhile_append_all (p : Char → Bool) (l t : List Char)
    (hl : ∀ c ∈ l, p c = true) (ht : ∀ c, t.head? = some c → p c = false) :
    (l ++ t).takeWhile p = l := by
  induction l with
  | nil => simpa using takeWhile_nil_of_head p t ht
  | cons a l2 ih =>
    rw [List.cons_append, List.takeWhile_cons, if_pos (hl a (List.mem_cons_self a l2))]
    rw [ih (fun c hc => hl c (List.mem_cons_of_mem a hc))]

theorem dropWhile_append_head (p : Char → Bool) (l t : List Char)
    (ht : ∀ c, t.head? = some c → p c = false) :
    (l ++ t).dropWhile p = l.dropWhile p ++ t := by
  induction l with
  | nil =>
    cases t with
    | nil => rfl
    | cons a t2 => simp [List.dropWhile_cons, ht a rfl]
  | cons a l2 ih =>
    rw [List.cons_append, List.dropWhile_cons, List.dropWhile_cons]
    by_cases ha : p a = true
    · rw [if_pos ha, if_pos ha, ih]
    · rw [if_neg ha, if_neg ha, List.cons_append]

theorem dropWhile_head_false (p : Char → Bool) (l : List Char) (a : Char) (x : List Char)
    (h : l.dropWhile p = a :: x) : p a = false := by
  induction l with
  | nil => simp at h
  | cons b l2 ih =>
    rw [List.dropWhile_cons] at h
    by_cases hb : p b = true
    · rw [if_pos hb] at h
      exact ih h
    · rw [if_neg hb] at h
      cases h
      simpa using hb

theorem mem_of_mem_dropWhile (p : Char → Bool) (l : List Char) (c : Char)
    (hc : c ∈ l.dropWhile p) : c ∈ l :=
  (List.dropWhile_sublist p).subset hc

/-- C7: for every address whose delta is written as a run of plus, minus
and space characters — whatever base specifier (number, pattern, `$`, `.`
or none) and leading whitespace precede it, captured by the hypotheses on
the parser's base stage — parsing fails with an invalid-delta error
carrying the full original input text when the run (spaces stripped) mixes
both symbols, and otherwise succeeds with a delta equal to the count of
symbols, positive for a run of plus and negative for a run of minus. -/
theorem claim_C7 (expr : String) (addr0 : Addr) (rest1 run tail : List Char)
    (hbase : parseBase (expr.data.dropWhile pySpace) = (addr0, rest1))
    (hcs2 : rest1.dropWhile pySpace = run ++ tail)
    (hne : run ≠ [])
    (hchars : ∀ c ∈ run, c = ' ' ∨ c = '+' ∨ c = '-')
    (hhead : run.head? = some '+' ∨ run.head? = some '-')
    (htail : ∀ c, tail.head? = some c →
      (pySpace c = false ∧ plusChar c = false ∧ c.isDigit = false)) :
    (('+' ∈ run.filter (fun c => c ≠ ' ') ∧ '-' ∈ run.filter (fun c => c ≠ ' ')) →
        Addr.parse expr = .error (.invalidDelta expr))
    ∧ ((run.filter (fun c => c ≠ ' ')).all (fun x => x = '+') = true →
        Addr.parse expr =
          .ok ({ addr0 with delta := ((run.filter (fun c => c ≠ ' ')).length : Int) },
            String.mk tail))
    ∧ ((run.filter (fun c => c ≠ ' ')).all (fun x => x = '-') = true →
        Addr.parse expr =
          .ok ({ addr0 with delta := -((run.filter (fun c => c ≠ ' ')).length : Int) },
            String.mk tail)) := by
  obtain ⟨h, rt, rfl⟩ : ∃ h rt, run = h :: rt := by
    cases run with
    | nil => exact absurd rfl hne
    | cons a t2 => exact ⟨a, t2, rfl⟩
  have hsign : h = '+' ∨ h = '-' := by
    rcases hhead with hp | hm
    · exact Or.inl (by simpa using hp)
    · exact Or.inr (by simpa using hm)
  have hmemT : ∀ c ∈ rt, c = ' ' ∨ c = '+' ∨ c = '-' :=
    fun c hc => hchars c (List.mem_cons_of_mem h hc)
  have htailSpace : ∀ c, tail.head? = some c → pySpace c = false :=
    fun c hc => (htail c hc).1
  have hdwa : (rt ++ tail).dropWhile pySpace = rt.dropWhile pySpace ++ tail :=
    dropWhile_append_head pySpace rt tail htailSpace
  have hds : ((rt.dropWhile pySpace) ++ tail).takeWhile Char.isDigit = [] := by
    apply takeWhile_nil_of_head
    intro c hc
    cases hx : rt.dropWhile pySpace with
    | nil =>
      rw [hx] at hc
      simp only [List.nil_append] at hc
      exact (htail c hc).2.2
    | cons a x =>
      rw [hx] at hc
      simp only [List.cons_append, List.head?_cons, Option.some.injEq] at hc
      have hmem : a ∈ rt :=
        mem_of_mem_dropWhile pySpace rt a (by rw [hx]; exact List.mem_cons_self a x)
      have hnospace : pySpace a = false := dropWhile_head_false pySpace rt a x hx
      rw [← hc]
      rcases hmemT a hmem with rfl | rfl | rfl
      · simp [pySpace] at hnospace
      · rfl
      · rfl
  have hnum : parseNumDelta ((h :: rt) ++ tail) = none := by
    rcases hsign with rfl | rfl <;>
      simp [parseNumDelta, hdwa, hds]
  have htake : ((h :: rt) ++ tail).takeWhile plusChar = h :: rt := by
    apply takeWhile_append_all
    · intro c hc
      rcases hchars c hc with rfl | rfl | rfl <;> rfl
    · exact fun c hc => (htail c hc).2.1
  have hdroprun : ((h :: rt) ++ tail).drop (h :: rt).length = tail :=
    List.drop_left (h :: rt) tail
  have hfil : (h :: rt).filter (fun c => c ≠ ' ') = h :: rt.filter (fun c => c ≠ ' ') := by
    rw [List.filter_cons]
    rcases hsign with rfl | rfl <;> simp
  have heval : Addr.parse expr =
      (if ((rt.filter (fun c => c ≠ ' ')).all fun x => x = h) then
        Except.ok (({ addr0 with
                delta := (((h :: rt).filter (fun c => c ≠ ' ')).length : Int) *
                  (if h = '+' then 1 else -1) } : Addr), String.mk tail)
      else .error (.invalidDelta expr)) := by
    simp only [Addr.parse, hbase, hcs2, hnum, htake, hdroprun, hfil]
    simp [hfil]
  refine ⟨?_, ?_, ?_⟩
  · rintro ⟨hp, hm⟩
    rcases hsign with rfl | rfl
    · have hmem : '-' ∈ rt.filter (fun c => c ≠ ' ') := by
        rw [hfil] at hm
        rcases List.mem_cons.mp hm with heq | hmm
        · exact absurd heq (by decide)
        · exact hmm
      have hcond : ((rt.filter (fun c => c ≠ ' ')).all fun x => decide (x = '+')) = false := by
        cases hall : ((rt.filter (fun c => c ≠ ' ')).all fun x => decide (x = '+')) with
        | false => rfl
        | true =>
          have hbad := List.all_eq_true.mp hall '-' hmem
          simp at hbad
      rw [heval]
      simp only [hcond]
      simp
    · have hmem : '+' ∈ rt.filter (fun c => c ≠ ' ') := by
        rw [hfil] at hp
        rcases List.mem_cons.mp hp with heq | hmm
        · exact absurd heq (by decide)
        · exact hmm
      have hcond : ((rt.filter (fun c => c ≠ ' ')).all fun x => decide (x = '-')) = false := by
        cases hall : ((rt.filter (fun c => c ≠ ' ')).all fun x => decide (x = '-')) with
        | false => rfl
        | true =>
          have hbad := List.all_eq_true.mp hall '+' hmem
          simp at hbad
      rw [heval]
      simp only [hcond]
      simp
  · intro hall
    rw [hfil] at hall
    simp only [List.all_cons, Bool.and_eq_true, decide_eq_true_eq] at hall
    obtain ⟨hh, halltf⟩ := hall
    subst hh
    rw [heval, if_pos (by simpa using halltf)]
    rw [hfil]
    simp
  · intro hall
    rw [hfil] at hall
    simp only [List.all_cons, Bool.and_eq_true, decide_eq_true_eq] at hall
    obtain ⟨hh, halltf⟩ := hall
    subst hh
    rw [heval, if_pos (by simpa using halltf)]
    rw [hfil]
    simp

/-- C7 witness: a pattern base followed by the mixed run `-+-` fails with
the full original input in the error, `$---` parses to the last-line
address with delta -3, and the bare run `+++` parses to delta +3. -/
theorem claim_C7_witness :
    Addr.parse "/pattern/-+-" = .error (.invalidDelta "/pattern/-+-")
    ∧ Addr.parse "$---" = .ok ({ last := true, delta := -3 }, "")
    ∧ Addr.parse "+++" = .ok ({ delta := 3 }, "") := by
  refine ⟨?_, ?_, ?_⟩
  · exact (claim_C7 "/pattern/-+-" { regex := some "pattern" }
      ['-', '+', '-'] ['-', '+', '-'] [] rfl rfl (by decide) (by decide) (by decide)
      (fun c hc => Option.noConfusion hc)).1 (by decide)
  · exact (claim_C7 "$---" { last := true }
      ['-', '-', '-'] ['-', '-', '-'] [] rfl rfl (by decide) (by decide) (by decide)
      (fun c hc => Option.noConfusion hc)).2.2 (by decide)
  · exact (claim_C7 "+++" {}
      ['+', '+', '+'] ['+', '+', '+'] [] rfl rfl (by decide) (by decide) (by decide)
      (fun c hc => Option.noConfusion hc)).2.1 (by decide)
